import Mathlib

/-!
Verification of the SmartStudy Abroad repository.

The repository consists of Next.js route handlers that forward JSON bodies to a
Python backend, React components holding local UI state, and the documented
Python store layer (`backend/mongodb_handler.py`, reproduced in
`PROJECT_DOCUMENTATION.md`).  Strings are modelled as lists of Unicode code
points (`List Nat`), since the only string operations the code performs are
lowercasing, whitespace trimming, equality and substring tests.
-/

namespace SmartStudy

/-- Code points of a string literal, for writing concrete strings. -/
def str (s : String) : List Nat := s.data.map Char.toNat

/-- ASCII lowercasing of one code point, as performed by Python `str.lower`
on the ASCII inputs used by the application. -/
def lowerChar (c : Nat) : Nat := if 65 ≤ c ∧ c ≤ 90 then c + 32 else c

/-- `s.lower()`: lowercase every character. -/
def lowerStr (s : List Nat) : List Nat := s.map lowerChar

/-- Python `str.strip` whitespace class: space, tab, LF, VT, FF, CR. -/
def isSpaceChar (c : Nat) : Bool :=
  c == 32 || c == 9 || c == 10 || c == 11 || c == 12 || c == 13

/-- `s.strip()`: drop whitespace from both ends. -/
def strip (s : List Nat) : List Nat :=
  (((s.dropWhile isSpaceChar).reverse).dropWhile isSpaceChar).reverse

/-- The abbreviation dictionary of `normalize_name` in
`backend/mongodb_handler.py`. -/
def abbreviations : List (List Nat × List Nat) :=
  [(str "mit", str "massachusetts institute of technology"),
   (str "ucla", str "university of california los angeles"),
   (str "usc", str "university of southern california")]

/-- `normalize_name` from `backend/mongodb_handler.py`: lowercase and strip,
then substitute the abbreviation expansion when the result is a key of the
dictionary. -/
def normalize_name (name : List Nat) : List Nat :=
  let normalized := strip (lowerStr name)
  match abbreviations.lookup normalized with
  | some expansion => expansion
  | none => normalized

/-- The lowercased-and-trimmed comparison key, named for readability of the
statements below. -/
def canon (name : List Nat) : List Nat := strip (lowerStr name)

theorem normalize_name_eq (name : List Nat) :
    normalize_name name =
      match abbreviations.lookup (canon name) with
      | some expansion => expansion
      | none => canon name := rfl

/- ### Idempotence machinery for `canon` -/

theorem lowerChar_idem (c : Nat) : lowerChar (lowerChar c) = lowerChar c := by
  unfold lowerChar
  by_cases h : 65 ≤ c ∧ c ≤ 90
  · rw [if_pos h, if_neg (by omega)]
  · rw [if_neg h, if_neg h]

theorem lowerStr_fix (s : List Nat) (h : ∀ c ∈ s, lowerChar c = c) :
    lowerStr s = s := by
  induction s with
  | nil => rfl
  | cons a t ih =>
      have ha := h a (by simp)
      have ht := ih (fun c hc => h c (by simp [hc]))
      simp only [lowerStr, List.map_cons] at *
      rw [ha, ht]

theorem lowerStr_mem_fix (s : List Nat) {c : Nat} (h : c ∈ lowerStr s) :
    lowerChar c = c := by
  simp only [lowerStr, List.mem_map] at h
  obtain ⟨a, _, rfl⟩ := h
  exact lowerChar_idem a

theorem dropWhile_idem (p : Nat → Bool) (l : List Nat) :
    (l.dropWhile p).dropWhile p = l.dropWhile p := by
  induction l with
  | nil => rfl
  | cons a t ih =>
      by_cases h : p a
      · simp [List.dropWhile_cons, h, ih]
      · simp [List.dropWhile_cons, h]

theorem dropWhile_head_false (p : Nat → Bool) (l : List Nat)
    (hfix : l.dropWhile p = l) {a : Nat} {t : List Nat} (hl : l = a :: t) :
    p a = false := by
  subst hl
  by_contra hpa
  simp only [Bool.not_eq_false] at hpa
  simp only [List.dropWhile_cons, hpa, if_true] at hfix
  have hle := (List.dropWhile_sublist (l := t) (p := p)).length_le
  have := congrArg List.length hfix
  simp at this
  omega

theorem dropWhile_fix_of_prefix (p : Nat → Bool) {q l : List Nat}
    (hq : q <+: l) (hl : l.dropWhile p = l) : q.dropWhile p = q := by
  cases l with
  | nil =>
      have : q = [] := List.prefix_nil.mp hq
      simp [this]
  | cons a t =>
      cases q with
      | nil => rfl
      | cons b q' =>
          obtain ⟨r, hr⟩ := hq
          have hba : b = a := by
            have := congrArg (fun l => l.head?) hr
            simpa using this
          subst hba
          simp [List.dropWhile_cons, dropWhile_head_false p _ hl rfl]

/-- The right-side strip. -/
def stripR (s : List Nat) : List Nat := (s.reverse.dropWhile isSpaceChar).reverse

theorem strip_eq_stripR_dropWhile (s : List Nat) :
    strip s = stripR (s.dropWhile isSpaceChar) := rfl

theorem stripR_idem (s : List Nat) : stripR (stripR s) = stripR s := by
  simp only [stripR, List.reverse_reverse]
  rw [dropWhile_idem]

theorem strip_idem (s : List Nat) : strip (strip s) = strip s := by
  have hu : (s.dropWhile isSpaceChar).dropWhile isSpaceChar
      = s.dropWhile isSpaceChar := dropWhile_idem _ _
  set u := s.dropWhile isSpaceChar with hudef
  have hpre : stripR u <+: u := by
    have hsuf : u.reverse.dropWhile isSpaceChar <:+ u.reverse :=
      List.dropWhile_suffix _
    have := List.reverse_prefix.mpr hsuf
    simpa [stripR] using this
  have hfix : (stripR u).dropWhile isSpaceChar = stripR u :=
    dropWhile_fix_of_prefix _ hpre hu
  calc strip (strip s)
      = stripR ((stripR u).dropWhile isSpaceChar) := rfl
    _ = stripR (stripR u) := by rw [hfix]
    _ = stripR u := stripR_idem u
    _ = strip s := rfl

theorem strip_subset (s : List Nat) : ∀ c ∈ strip s, c ∈ s := by
  intro c hc
  simp only [strip, List.mem_reverse] at hc
  have h1 := (List.dropWhile_sublist (l := (s.dropWhile isSpaceChar).reverse)
    (p := isSpaceChar)).mem hc
  simp only [List.mem_reverse] at h1
  exact (List.dropWhile_sublist (l := s) (p := isSpaceChar)).mem h1

theorem canon_idem (s : List Nat) : canon (canon s) = canon s := by
  unfold canon
  have hfix : lowerStr (strip (lowerStr s)) = strip (lowerStr s) :=
    lowerStr_fix _ (fun c hc => lowerStr_mem_fix s (strip_subset _ c hc))
  rw [hfix, strip_idem]

/-- Every expansion stored in the abbreviation table is already in canonical
form and is not itself a key of the table. -/
theorem abbreviations_values_stable (k v : List Nat)
    (h : abbreviations.lookup k = some v) :
    canon v = v ∧ abbreviations.lookup v = none := by
  by_cases h1 : k = str "mit"
  · subst h1
    have hc : abbreviations.lookup (str "mit")
        = some (str "massachusetts institute of technology") := by decide
    rw [hc] at h
    injection h with h
    subst h
    constructor <;> decide
  · by_cases h2 : k = str "ucla"
    · subst h2
      have hc : abbreviations.lookup (str "ucla")
          = some (str "university of california los angeles") := by decide
      rw [hc] at h
      injection h with h
      subst h
      constructor <;> decide
    · by_cases h3 : k = str "usc"
      · subst h3
        have hc : abbreviations.lookup (str "usc")
            = some (str "university of southern california") := by decide
        rw [hc] at h
        injection h with h
        subst h
        constructor <;> decide
      · exfalso
        have b1 : (k == str "mit") = false := beq_eq_false_iff_ne.mpr h1
        have b2 : (k == str "ucla") = false := beq_eq_false_iff_ne.mpr h2
        have b3 : (k == str "usc") = false := beq_eq_false_iff_ne.mpr h3
        simp only [abbreviations, List.lookup, b1, b2, b3] at h
        exact Option.noConfusion h

/-- C2: the name normalizer is idempotent. -/
theorem normalize_name_idem (x : List Nat) :
    normalize_name (normalize_name x) = normalize_name x := by
  rw [normalize_name_eq x]
  cases h : abbreviations.lookup (canon x) with
  | some v =>
      obtain ⟨hv, hlook⟩ := abbreviations_values_stable _ v h
      rw [normalize_name_eq v]
      unfold canon at hv
      rw [show canon v = v from hv, hlook]
  | none =>
      rw [normalize_name_eq (canon x), canon_idem, h]

/-- C3: `normalize_name` returns the abbreviation-table expansion exactly when
the lowercased-and-trimmed form of the name is a key of the table, and the
lowercased-and-trimmed form unchanged otherwise; the empty string maps to the
empty string. -/
theorem normalize_name_spec (name : List Nat) :
    (∀ v, abbreviations.lookup (canon name) = some v → normalize_name name = v)
    ∧ (abbreviations.lookup (canon name) = none →
        normalize_name name = canon name)
    ∧ normalize_name [] = [] := by
  refine ⟨?_, ?_, by decide⟩
  · intro v hv
    rw [normalize_name_eq, hv]
  · intro hn
    rw [normalize_name_eq, hn]

theorem normalize_name_spec_witness :
    (abbreviations.lookup (canon (str " MIT "))
        = some (str "massachusetts institute of technology")
      ∧ normalize_name (str " MIT ")
        = str "massachusetts institute of technology")
    ∧ (abbreviations.lookup (canon (str "Harvard")) = none
      ∧ normalize_name (str "Harvard") = canon (str "Harvard")) :=
  ⟨⟨by decide, (normalize_name_spec (str " MIT ")).1 _ (by decide)⟩,
   ⟨by decide, (normalize_name_spec (str "Harvard")).2.1 (by decide)⟩⟩

/- ### Substring matching, used by the store's regex filters -/

/-- Does the first list start with the second one? -/
def startsWith : List Nat → List Nat → Bool
  | _, [] => true
  | [], _ :: _ => false
  | a :: as, b :: bs => a == b && startsWith as bs

/-- Does the first list contain the second as a contiguous subsequence?
Models a MongoDB `$regex` filter whose pattern is a plain string. -/
def containsSeq : List Nat → List Nat → Bool
  | [], pat => pat.isEmpty
  | a :: rest, pat => startsWith (a :: rest) pat || containsSeq rest pat

/-- Case-insensitive substring test, modelling
`{'$regex': pat, '$options': 'i'}` applied to field `big`. -/
def containsCI (big pat : List Nat) : Bool :=
  containsSeq (lowerStr big) (lowerStr pat)

/- ### The program store (`backend/mongodb_handler.py`) -/

/-- One document of the `programs` collection.  The data fields other than
the lookup key are abstracted into `payload`. -/
structure Document where
  university : List Nat
  degree : List Nat
  field : List Nat
  payload : Nat
  normalized_name : List Nat
  created_at : Nat
  updated_at : Nat
deriving DecidableEq

/-- The caller-supplied data passed to `save_program` (the `data` dict before
the handler adds its metadata). -/
structure ProgramData where
  university : List Nat
  degree : List Nat
  field : List Nat
  payload : Nat
deriving DecidableEq

/-- `save_program`: stamp `created_at`, `updated_at` and `normalized_name`,
then `insert_one` into the collection. -/
def save_program (data : ProgramData) (now : Nat) (store : List Document) :
    List Document :=
  store ++ [{ university := data.university, degree := data.degree,
              field := data.field, payload := data.payload,
              normalized_name := normalize_name data.university,
              created_at := now, updated_at := now }]

/-- The lookup filter shared by `find_program` (exact branch),
`update_program` and `delete_program`: normalized name equal, degree equal,
field matched case-insensitively as a substring. -/
def matchesKey (normalized degree field : List Nat) (doc : Document) : Bool :=
  doc.normalized_name == normalized && doc.degree == degree
    && containsCI doc.field field

/-- The fuzzy filter of `find_program`: the normalized-name comparison is a
case-insensitive substring match instead of equality. -/
def matchesFuzzy (normalized degree field : List Nat) (doc : Document) : Bool :=
  containsCI doc.normalized_name normalized && doc.degree == degree
    && containsCI doc.field field

/-- `find_one` with the exact filter. -/
def findExactDoc (store : List Document) (normalized degree field : List Nat) :
    Option Document :=
  store.find? (matchesKey normalized degree field)

/-- `find_one` with the fuzzy filter. -/
def findFuzzyDoc (store : List Document) (normalized degree field : List Nat) :
    Option Document :=
  store.find? (matchesFuzzy normalized degree field)

/-- `find_program`: normalize the university name, try the exact match,
fall back to the fuzzy match, return `none` when both miss. -/
def find_program (store : List Document) (university degree field : List Nat) :
    Option Document :=
  match findExactDoc store (normalize_name university) degree field with
  | some result => some result
  | none =>
      match findFuzzyDoc store (normalize_name university) degree field with
      | some result => some result
      | none => none

/-- `update_one` semantics: transform the first document satisfying the
filter, returning whether one was found. -/
def setFirst (p : Document → Bool) (f : Document → Document) :
    List Document → List Document × Bool
  | [] => ([], false)
  | d :: rest =>
      if p d then (f d :: rest, true)
      else
        let r := setFirst p f rest
        (d :: r.1, r.2)

/-- `update_program`: `$set` the new fields and a fresh `updated_at` on the
first document matching the key filter. -/
def update_program (university degree field : List Nat) (newPayload : Nat)
    (now : Nat) (store : List Document) : List Document × Bool :=
  setFirst (matchesKey (normalize_name university) degree field)
    (fun doc => { doc with payload := newPayload, updated_at := now }) store

/-- The effective lookup key of a stored document. -/
def docKey (doc : Document) : List Nat × List Nat × List Nat :=
  (doc.normalized_name, doc.degree, doc.field)

/-- How many stored documents carry a given key. -/
def countKey (store : List Document) (k : List Nat × List Nat × List Nat) :
    Nat :=
  (store.filter (fun doc => docKey doc = k)).length

/-- The record used in the C4 counterexample. -/
def progMIT : ProgramData :=
  ⟨str "MIT", str "Master", str "Computer Science", 0⟩

/-- C4 counterexample: `save_program` is a plain insert, not an upsert —
saving the same record twice leaves two documents with the same
(normalized name, degree, field) key in the store. -/
theorem save_program_duplicates :
    countKey (save_program progMIT 1 (save_program progMIT 0 []))
      (str "massachusetts institute of technology", str "Master",
        str "Computer Science") = 2 := by decide

theorem setFirst_false (p : Document → Bool) (f : Document → Document)
    (l : List Document) (h : (setFirst p f l).2 = false) :
    (setFirst p f l).1 = l := by
  induction l with
  | nil => rfl
  | cons d rest ih =>
      by_cases hp : p d
      · simp [setFirst, hp] at h
      · simp [setFirst, hp] at h ⊢
        exact ih h

theorem setFirst_true (p : Document → Bool) (f : Document → Document)
    (l : List Document) (h : (setFirst p f l).2 = true) :
    ∃ pre d post, l = pre ++ d :: post
      ∧ (setFirst p f l).1 = pre ++ f d :: post := by
  induction l with
  | nil => simp [setFirst] at h
  | cons d rest ih =>
      by_cases hp : p d
      · exact ⟨[], d, rest, by simp, by simp [setFirst, hp]⟩
      · simp [setFirst, hp] at h
        obtain ⟨pre, dd, post, hsplit, hres⟩ := ih h
        refine ⟨d :: pre, dd, post, by simp [hsplit], ?_⟩
        simp [setFirst, hp, hres]

/-- C4 (amended): `save_program` always appends a fresh document — stamping
both timestamps and the normalized name — and never merges;
`update_program`, not `save_program`, replaces the payload of the first
document matching the key, stamping only `updated_at` and leaving every
other field (in particular `created_at`) and every other document
unchanged. -/
theorem store_write_behavior :
    (∀ (data : ProgramData) (now : Nat) (store : List Document),
      ∃ d, save_program data now store = store ++ [d]
        ∧ d.created_at = now ∧ d.updated_at = now
        ∧ d.normalized_name = normalize_name data.university)
    ∧ (∀ (univ deg fld : List Nat) (np now : Nat) (store : List Document),
        ((update_program univ deg fld np now store).2 = false →
          (update_program univ deg fld np now store).1 = store)
        ∧ ((update_program univ deg fld np now store).2 = true →
          ∃ pre doc post, store = pre ++ doc :: post
            ∧ (update_program univ deg fld np now store).1
              = pre ++ { doc with payload := np, updated_at := now } :: post)) := by
  constructor
  · intro data now store
    exact ⟨_, rfl, rfl, rfl, rfl⟩
  · intro univ deg fld np now store
    constructor
    · intro h
      exact setFirst_false _ _ store h
    · intro h
      exact setFirst_true _ _ store h

/-- A stored document used in the C4 and C5 witnesses. -/
def docMIT : Document :=
  { university := str "MIT", degree := str "Master",
    field := str "Computer Science", payload := 3,
    normalized_name := str "massachusetts institute of technology",
    created_at := 0, updated_at := 0 }

theorem store_write_behavior_witness :
    ((update_program (str "MIT") (str "Master") (str "Computer Science")
        7 5 []).2 = false
      ∧ (update_program (str "MIT") (str "Master") (str "Computer Science")
          7 5 []).1 = [])
    ∧ ((update_program (str "MIT") (str "Master") (str "Computer Science")
        7 5 [docMIT]).2 = true
      ∧ ∃ pre doc post, [docMIT] = pre ++ doc :: post
        ∧ (update_program (str "MIT") (str "Master") (str "Computer Science")
            7 5 [docMIT]).1
          = pre ++ { doc with payload := 7, updated_at := 5 } :: post) :=
  ⟨⟨by decide,
    ((store_write_behavior.2 (str "MIT") (str "Master")
      (str "Computer Science") 7 5 []).1 (by decide))⟩,
   ⟨by decide,
    ((store_write_behavior.2 (str "MIT") (str "Master")
      (str "Computer Science") 7 5 [docMIT]).2 (by decide))⟩⟩

/-- C5: `find_program` prefers the exact normalized-name match, consults the
fuzzy match only when the exact one misses, and reports "not found" exactly
when both miss. -/
theorem find_program_order (store : List Document)
    (u deg fld : List Nat) :
    (∀ r, findExactDoc store (normalize_name u) deg fld = some r →
        find_program store u deg fld = some r)
    ∧ (findExactDoc store (normalize_name u) deg fld = none →
        find_program store u deg fld
          = findFuzzyDoc store (normalize_name u) deg fld)
    ∧ (find_program store u deg fld = none ↔
        findExactDoc store (normalize_name u) deg fld = none
        ∧ findFuzzyDoc store (normalize_name u) deg fld = none) := by
  refine ⟨?_, ?_, ?_⟩
  · intro r hr
    unfold find_program
    rw [hr]
  · intro hE
    unfold find_program
    rw [hE]
    cases hF : findFuzzyDoc store (normalize_name u) deg fld <;> simp
  · unfold find_program
    cases hE : findExactDoc store (normalize_name u) deg fld with
    | some r => simp
    | none =>
        cases hF : findFuzzyDoc store (normalize_name u) deg fld <;> simp

theorem find_program_order_witness :
    (findExactDoc [docMIT]
        (normalize_name (str "MIT")) (str "Master") (str "Computer Science")
        = some docMIT
      ∧ find_program [docMIT] (str "MIT") (str "Master")
          (str "Computer Science") = some docMIT)
    ∧ (findExactDoc [] (normalize_name (str "MIT")) (str "Master")
        (str "Computer Science") = none
      ∧ find_program [] (str "MIT") (str "Master") (str "Computer Science")
        = findFuzzyDoc [] (normalize_name (str "MIT")) (str "Master")
            (str "Computer Science")) :=
  ⟨⟨by decide,
    (find_program_order [docMIT] (str "MIT") (str "Master")
      (str "Computer Science")).1 docMIT (by decide)⟩,
   ⟨by decide,
    (find_program_order [] (str "MIT") (str "Master")
      (str "Computer Science")).2.1 (by decide)⟩⟩

/- ### The Next.js route handlers -/

/-- A JSON value, as far as the route handlers inspect one. -/
inductive JVal where
  | jstr (s : List Nat)
  | jother (n : Nat)
deriving DecidableEq

/-- A JSON object: keys paired with values. -/
def JObj := List (List Nat × JVal)

/-- Is a key present in the body? -/
def hasKey (body : JObj) (k : List Nat) : Bool :=
  body.any (fun p => p.1 == k)

/-- The value at a key, if present. -/
def getVal (body : JObj) (k : List Nat) : Option JVal :=
  List.lookup k body

/-- `POST /api/chat` (`src/app/api/chat/route.ts`): forward to the backend;
on any failure of the `try` block answer 500 with a fallback `response`
text.  The argument is the backend call's outcome (`none` = fetch threw or
the body failed to parse). -/
def chatPOST (backend : Option JObj) : Nat × JObj :=
  match backend with
  | some data => (200, data)
  | none =>
      (500, [(str "response",
        JVal.jstr (str "Sorry, I could not connect to the AI backend. Please try again later."))])

/-- `POST /api/findme` (`src/app/api/findme/route.ts`, first handler):
forward to the backend; on failure answer 500 with an `error` string. -/
def findmePOST (backend : Option JObj) : Nat × JObj :=
  match backend with
  | some data => (200, data)
  | none =>
      (500, [(str "error",
        JVal.jstr (str "Failed to connect to backend. Make sure Python API is running."))])

/-- `POST /api/search` (`src/app/api/findme/route.ts`, second handler):
forward to the backend; on failure answer 500 with `source = error` and an
`error` string. -/
def searchPOST (backend : Option JObj) : Nat × JObj :=
  match backend with
  | some data => (200, data)
  | none =>
      (500, [(str "source", JVal.jstr (str "error")),
             (str "error",
        JVal.jstr (str "Failed to connect to backend. Make sure Python API is running."))])

/-- C6 counterexample: the failure bodies of the chat and findme handlers
carry no `source` discriminator at all. -/
theorem error_bodies_lack_source :
    hasKey (chatPOST none).2 (str "source") = false
    ∧ hasKey (findmePOST none).2 (str "source") = false := by decide

/-- C6 (amended): only the search handler's failure body carries
`source = "error"`; the findme handler's failure body carries an `error`
string without a `source`, and the chat handler's failure body carries only
a fallback `response` text; each handler passes a successful backend body
through unchanged, so a `source` discriminator appears only where the
backend supplies one. -/
theorem source_discriminator_behavior :
    getVal (searchPOST none).2 (str "source") = some (JVal.jstr (str "error"))
    ∧ hasKey (findmePOST none).2 (str "source") = false
    ∧ hasKey (findmePOST none).2 (str "error") = true
    ∧ hasKey (chatPOST none).2 (str "source") = false
    ∧ hasKey (chatPOST none).2 (str "response") = true
    ∧ ∀ data : JObj, chatPOST (some data) = (200, data)
        ∧ findmePOST (some data) = (200, data)
        ∧ searchPOST (some data) = (200, data) := by
  exact ⟨by decide, by decide, by decide, by decide, by decide,
    fun data => ⟨rfl, rfl, rfl⟩⟩

/-- C7 counterexample: the chat handler's failure body has no `error`
field — its well-formed fallback shape is `{response: string}`. -/
theorem chat_error_body_lacks_error :
    hasKey (chatPOST none).2 (str "error") = false := by decide

/-- C7 (amended): on backend failure every handler answers status 500 with a
well-formed object; search and findme carry a structured `error` string,
while chat carries a fallback `response` string and no `error` field. -/
theorem failure_responses :
    (searchPOST none).1 = 500
    ∧ getVal (searchPOST none).2 (str "error")
        = some (JVal.jstr (str "Failed to connect to backend. Make sure Python API is running."))
    ∧ (findmePOST none).1 = 500
    ∧ getVal (findmePOST none).2 (str "error")
        = some (JVal.jstr (str "Failed to connect to backend. Make sure Python API is running."))
    ∧ (chatPOST none).1 = 500
    ∧ getVal (chatPOST none).2 (str "response")
        = some (JVal.jstr (str "Sorry, I could not connect to the AI backend. Please try again later."))
    ∧ hasKey (chatPOST none).2 (str "error") = false := by decide

/-- The body the chat handler forwards to the backend:
`JSON.stringify({ message })` where `message` is destructured from the
inbound body (an absent property serializes to the empty object). -/
def chatForwardBody (body : JObj) : JObj :=
  match List.lookup (str "message") body with
  | some m => [(str "message", m)]
  | none => []

/-- C9: the chat handler forwards only the `message` field — two inbound
bodies agreeing on `message` produce identical backend request bodies,
whatever other fields they carry. -/
theorem chat_forwards_only_message (b1 b2 : JObj)
    (h : List.lookup (str "message") b1 = List.lookup (str "message") b2) :
    chatForwardBody b1 = chatForwardBody b2 := by
  unfold chatForwardBody
  rw [h]

theorem chat_forwards_only_message_witness :
    List.lookup (str "message")
        [(str "message", JVal.jstr (str "hello")),
         (str "apiKey", JVal.jstr (str "hunter2"))]
      = List.lookup (str "message")
        [(str "message", JVal.jstr (str "hello"))]
    ∧ chatForwardBody
        [(str "message", JVal.jstr (str "hello")),
         (str "apiKey", JVal.jstr (str "hunter2"))]
      = chatForwardBody [(str "message", JVal.jstr (str "hello"))] :=
  ⟨by decide, chat_forwards_only_message _ _ (by decide)⟩

/- ### Form submit handlers (`SearchTab.tsx`, `FindForMeTab.tsx`) -/

/-- The request body `handleSearch` would send to `/api/search`. -/
structure SearchReqBody where
  university : List Nat
  degree : List Nat
  field : List Nat
  question : List Nat
  fetchAll : Bool
deriving DecidableEq

/-- The synchronous prefix of `SearchTab.handleSearch`: given the form
fields and the current result state, either reject at the boundary (no
request, state untouched) or issue the request body; the result state is
only ever set later, from a response. -/
def handleSearch (university degree field question : List Nat)
    (fetchAll : Bool) (result : Option Nat) :
    Option SearchReqBody × Option Nat :=
  if university.isEmpty || field.isEmpty then (none, result)
  else if !fetchAll && question.isEmpty then (none, result)
  else (some ⟨university, degree, field,
          if fetchAll then str "all" else question, fetchAll⟩, result)

/-- The requirement form state of `FindForMeTab`. -/
structure Requirements where
  degree : List Nat
  field : List Nat
  maxTuition : List Nat
  minGPA : List Nat
  englishTest : List Nat
  englishScore : List Nat
  country : List Nat
  preferScholarship : Bool
deriving DecidableEq

/-- The request body `handleFind` would send to `/api/findme`. -/
structure FindReqBody where
  reqs : Requirements
  top_k : Nat
deriving DecidableEq

/-- The synchronous prefix of `FindForMeTab.handleFind`. -/
def handleFind (reqs : Requirements) (results : List Nat) :
    Option FindReqBody × List Nat :=
  if reqs.field.isEmpty then (none, results)
  else (some ⟨reqs, 5⟩, results)

/-- C8: with a required input missing — empty university or field in the
search form, empty field in the find-me form — the submit handlers issue no
network request and leave the result state unchanged. -/
theorem validation_rejected_at_boundary :
    (∀ (u deg f q : List Nat) (fa : Bool) (res : Option Nat),
      u = [] ∨ f = [] → handleSearch u deg f q fa res = (none, res))
    ∧ (∀ (r : Requirements) (res : List Nat),
      r.field = [] → handleFind r res = (none, res)) := by
  constructor
  · rintro u deg f q fa res (rfl | rfl) <;> simp [handleSearch]
  · intro r res h
    simp [handleFind, h]

/-- A find-me form state whose field of study is empty, for the C8 witness. -/
def reqsEmptyField : Requirements :=
  ⟨str "Master", str "", str "50000", str "3.5", str "TOEFL", str "100",
   str "USA", false⟩

theorem validation_rejected_at_boundary_witness :
    ((str "" = ([] : List Nat) ∨ str "Computer Science" = ([] : List Nat))
      ∧ handleSearch (str "") (str "Master") (str "Computer Science")
          (str "tuition") false (some 4) = (none, some 4))
    ∧ (reqsEmptyField.field = []
      ∧ handleFind reqsEmptyField [7] = (none, [7])) :=
  ⟨⟨Or.inl (by decide),
    (validation_rejected_at_boundary.1 (str "") (str "Master")
      (str "Computer Science") (str "tuition") false (some 4)
      (Or.inl (by decide)))⟩,
   ⟨by decide,
    (validation_rejected_at_boundary.2 reqsEmptyField [7] (by decide))⟩⟩

/- ### The chat widget (`AIChat.tsx`) -/

/-- The sender tag of a transcript message. -/
inductive Sender where
  | user
  | ai
deriving DecidableEq

/-- One message of the chat transcript. -/
structure ChatMessage where
  id : Nat
  text : List Nat
  sender : Sender
  timestamp : Nat
deriving DecidableEq

/-- The `systemMessages` effect of `AIChat`: when the list is non-empty,
append an AI message with the last system message's text unless some
transcript message already has that text. -/
def ingestSystemMessages (systemMessages : List (List Nat)) (now : Nat)
    (prev : List ChatMessage) : List ChatMessage :=
  match systemMessages.getLast? with
  | none => prev
  | some lastMessage =>
      if lastMessage ∈ prev.map (fun m => m.text) then prev
      else prev ++ [⟨now, lastMessage, Sender.ai, now⟩]

/-- C10: for a non-empty system-message list with last text `l`, the state
update appends exactly one AI message with text `l` when no transcript
message has that text, and leaves the transcript unchanged when one does. -/
theorem ingest_system_messages_spec (sys : List (List Nat)) (now : Nat)
    (prev : List ChatMessage) (l : List Nat) (h : sys.getLast? = some l) :
    ((∀ m ∈ prev, m.text ≠ l) →
      ingestSystemMessages sys now prev
        = prev ++ [⟨now, l, Sender.ai, now⟩])
    ∧ ((∃ m ∈ prev, m.text = l) → ingestSystemMessages sys now prev = prev) := by
  simp only [ingestSystemMessages, h]
  constructor
  · intro hno
    rw [if_neg]
    intro hmem
    obtain ⟨m, hm, hmt⟩ := List.mem_map.mp hmem
    exact hno m hm hmt
  · intro hyes
    obtain ⟨m, hm, hmt⟩ := hyes
    rw [if_pos (List.mem_map.mpr ⟨m, hm, hmt⟩)]

/-- A transcript message whose text is already present, for the C10
witness. -/
def msgHi : ChatMessage := ⟨1, str "hi", Sender.ai, 1⟩

theorem ingest_system_messages_spec_witness :
    ([str "searching"].getLast? = some (str "searching")
      ∧ (∀ m ∈ ([] : List ChatMessage), m.text ≠ str "searching")
      ∧ ingestSystemMessages [str "searching"] 9 []
        = [] ++ [⟨9, str "searching", Sender.ai, 9⟩])
    ∧ ([str "done", str "hi"].getLast? = some (str "hi")
      ∧ (∃ m ∈ [msgHi], m.text = str "hi")
      ∧ ingestSystemMessages [str "done", str "hi"] 9 [msgHi] = [msgHi]) :=
  ⟨⟨by decide, by decide,
    (ingest_system_messages_spec [str "searching"] 9 [] (str "searching")
      (by decide)).1 (by decide)⟩,
   ⟨by decide, ⟨msgHi, by decide⟩,
    (ingest_system_messages_spec [str "done", str "hi"] 9 [msgHi] (str "hi")
      (by decide)).2 ⟨msgHi, by decide⟩⟩⟩

/- ### The Match Scorer -/

/-- Modelled from the spec: the Match Scorer (`backend/rag/matcher.py`) is
listed in the project layout but its implementation is not in the
repository; the requirement profile is modelled from spec section 3, with a
sub-criterion the user omitted represented as `none`. -/
structure RequirementProfile where
  degree : List Nat
  field : List Nat
  maxTuition : Option ℚ
  gpa : Option ℚ
  englishTest : List Nat
  englishScore : Option ℚ
  country : List Nat
  scholarship : Bool

/-- Modelled from the spec: the candidate program record, reduced to the
attributes the scoring formula reads. -/
structure ProgramRecord where
  university : List Nat
  degree : List Nat
  field : List Nat
  tuition : ℚ
  gpaRequired : ℚ

/-- The four weighted sub-scores of a match, named as in the
`score_breakdown` object the frontend renders. -/
structure ScoreBreakdown where
  semantic_similarity : ℚ
  budget_fit : ℚ
  gpa_fit : ℚ
  field_match : ℚ

/-- A scored candidate: the breakdown and the composite score. -/
structure MatchResult where
  score_breakdown : ScoreBreakdown
  match_score : ℤ

/-- Modelled from the spec: the budget-fit sub-score — 100 when no ceiling
was given or tuition is within it, otherwise decreasing with the relative
overshoot, floored at 0. -/
def budget_fit (maxTuition : Option ℚ) (tuition : ℚ) : ℚ :=
  match maxTuition with
  | none => 100
  | some m => if tuition ≤ m then 100 else max 0 (100 - 100 * (tuition - m) / m)

/-- Modelled from the spec: the GPA-fit sub-score — 100 when the user meets
the requirement (or gave no GPA), degrading proportionally with the gap,
floored at 0. -/
def gpa_fit (userGpa : Option ℚ) (required : ℚ) : ℚ :=
  match userGpa with
  | none => 100
  | some g => if required ≤ g then 100 else max 0 (100 - (required - g) * 100)

/-- Modelled from the spec: the field-match sub-score — 100 on an exact
case-insensitive match, 50 on a substring overlap, 0 otherwise. -/
def field_match (userField recordField : List Nat) : ℚ :=
  if lowerStr userField = lowerStr recordField then 100
  else if containsSeq (lowerStr recordField) (lowerStr userField)
      || containsSeq (lowerStr userField) (lowerStr recordField) then 50
  else 0

/-- Modelled from the spec: the Match Scorer — the semantic-similarity
sub-score is supplied by the injected embedding capability, and the
composite is the fixed 40/25/20/15 weighted sum, rounded. -/
def score (semantic : ℚ) (profile : RequirementProfile)
    (record : ProgramRecord) : MatchResult :=
  { score_breakdown :=
      ⟨semantic,
       budget_fit profile.maxTuition record.tuition,
       gpa_fit profile.gpa record.gpaRequired,
       field_match profile.field record.field⟩,
    match_score :=
      round ((40 * semantic
        + 25 * budget_fit profile.maxTuition record.tuition
        + 20 * gpa_fit profile.gpa record.gpaRequired
        + 15 * field_match profile.field record.field) / 100) }

theorem budget_fit_bounds (m : Option ℚ) (t : ℚ)
    (hm : ∀ x, m = some x → 0 ≤ x) :
    0 ≤ budget_fit m t ∧ budget_fit m t ≤ 100 := by
  cases m with
  | none => exact ⟨by norm_num [budget_fit], by norm_num [budget_fit]⟩
  | some x =>
      have hx : 0 ≤ x := hm x rfl
      simp only [budget_fit]
      by_cases ht : t ≤ x
      · rw [if_pos ht]
        norm_num
      · rw [if_neg ht]
        refine ⟨le_max_left _ _, max_le (by norm_num) ?_⟩
        rcases eq_or_lt_of_le hx with hx0 | hxpos
        · rw [← hx0]
          norm_num
        · have hdiv : 0 ≤ 100 * (t - x) / x :=
            div_nonneg (by nlinarith [not_le.mp ht]) (le_of_lt hxpos)
          linarith

theorem gpa_fit_bounds (g : Option ℚ) (r : ℚ) :
    0 ≤ gpa_fit g r ∧ gpa_fit g r ≤ 100 := by
  cases g with
  | none => exact ⟨by norm_num [gpa_fit], by norm_num [gpa_fit]⟩
  | some u =>
      simp only [gpa_fit]
      by_cases hr : r ≤ u
      · rw [if_pos hr]
        norm_num
      · rw [if_neg hr]
        refine ⟨le_max_left _ _, max_le (by norm_num) ?_⟩
        nlinarith [not_le.mp hr]

theorem field_match_bounds (uf rf : List Nat) :
    0 ≤ field_match uf rf ∧ field_match uf rf ≤ 100 := by
  unfold field_match
  split
  · norm_num
  · split <;> norm_num

theorem round_bounds {x : ℚ} (h0 : 0 ≤ x) (h1 : x ≤ 100) :
    0 ≤ round x ∧ round x ≤ 100 := by
  rw [round_eq]
  constructor
  · exact Int.le_floor.mpr (by push_cast; linarith)
  · have : ⌊x + 1 / 2⌋ < 101 := Int.floor_lt.mpr (by push_cast; linarith)
    omega

/-- C1: for every requirement profile (with a well-formed tuition ceiling)
and candidate record, and every semantic-similarity value the embedding
capability supplies in [0, 100], the composite match score equals
round(0.40·semantic + 0.25·budget + 0.20·gpa + 0.15·field) over the four
sub-scores of its own breakdown, and lies in 0..100. -/
theorem match_score_formula (semantic : ℚ) (profile : RequirementProfile)
    (record : ProgramRecord)
    (hs : 0 ≤ semantic ∧ semantic ≤ 100)
    (hm : ∀ x, profile.maxTuition = some x → 0 ≤ x) :
    ((score semantic profile record).match_score
      = round ((40 / 100)
            * (score semantic profile record).score_breakdown.semantic_similarity
          + (25 / 100)
            * (score semantic profile record).score_breakdown.budget_fit
          + (20 / 100)
            * (score semantic profile record).score_breakdown.gpa_fit
          + (15 / 100)
            * (score semantic profile record).score_breakdown.field_match))
    ∧ 0 ≤ (score semantic profile record).match_score
    ∧ (score semantic profile record).match_score ≤ 100 := by
  obtain ⟨hb0, hb1⟩ := budget_fit_bounds profile.maxTuition record.tuition hm
  obtain ⟨hg0, hg1⟩ := gpa_fit_bounds profile.gpa record.gpaRequired
  obtain ⟨hf0, hf1⟩ := field_match_bounds profile.field record.field
  obtain ⟨hs0, hs1⟩ := hs
  have havg0 : 0 ≤ (40 * semantic
      + 25 * budget_fit profile.maxTuition record.tuition
      + 20 * gpa_fit profile.gpa record.gpaRequired
      + 15 * field_match profile.field record.field) / 100 :=
    div_nonneg (by linarith) (by norm_num)
  have havg1 : (40 * semantic
      + 25 * budget_fit profile.maxTuition record.tuition
      + 20 * gpa_fit profile.gpa record.gpaRequired
      + 15 * field_match profile.field record.field) / 100 ≤ 100 := by
    rw [div_le_iff₀ (by norm_num)]
    linarith
  obtain ⟨hr0, hr1⟩ := round_bounds havg0 havg1
  refine ⟨?_, hr0, hr1⟩
  simp only [score]
  congr 1
  ring

/-- A concrete requirement profile for the C1 witness (scenario 3 of the
spec's testable properties). -/
def profileCS : RequirementProfile :=
  ⟨str "Master", str "Computer Science", some 50000, some (7 / 2),
   str "TOEFL", some 100, str "USA", false⟩

/-- A concrete candidate record for the C1 witness. -/
def recordMIT : ProgramRecord :=
  ⟨str "MIT", str "Master", str "Computer Science", 60000, 3⟩

theorem match_score_formula_witness :
    ((0:ℚ) ≤ 80 ∧ (80:ℚ) ≤ 100)
    ∧ (∀ x, profileCS.maxTuition = some x → 0 ≤ x)
    ∧ (((score 80 profileCS recordMIT).match_score
        = round ((40 / 100)
              * (score 80 profileCS recordMIT).score_breakdown.semantic_similarity
            + (25 / 100)
              * (score 80 profileCS recordMIT).score_breakdown.budget_fit
            + (20 / 100)
              * (score 80 profileCS recordMIT).score_breakdown.gpa_fit
            + (15 / 100)
              * (score 80 profileCS recordMIT).score_breakdown.field_match))
      ∧ 0 ≤ (score 80 profileCS recordMIT).match_score
      ∧ (score 80 profileCS recordMIT).match_score ≤ 100) :=
  ⟨⟨by norm_num, by norm_num⟩,
   fun x hx => by
     have h5 : (50000 : ℚ) = x := Option.some_inj.mp hx
     rw [← h5]
     norm_num,
   match_score_formula 80 profileCS recordMIT ⟨by norm_num, by norm_num⟩
     (fun x hx => by
       have h5 : (50000 : ℚ) = x := Option.some_inj.mp hx
       rw [← h5]
       norm_num)⟩

end SmartStudy
